import Mathlib

/-!
Verification of the Structured-Content-to-Slide-Deck Rendering Pipeline
(PPT_Generator repository).

The development shallowly embeds the Python functions of the pipeline:
`_extract_json_from_response` and `_validate_outline_structure`
(`realtyai/core/llm_handler.py`), `Theme.get_layout`
(`realtyai/ppt/slide_templates.py`), `PowerPointBuilder.add_slide`,
`_extract_bullet_points` and `_add_bullet_points`
(`realtyai/ppt/pptx_generator.py`), and the deck-assembly block of
`main.py`.

Python values flowing through the pipeline (decoded JSON payloads and
slide-data dictionaries) are embedded as the inductive type `PyVal`
covering the shapes the pipeline produces: `None`, integers, strings,
lists and string-keyed dictionaries.  Operations that can raise a Python
`TypeError`/`AttributeError` on values of this universe are embedded with
an `Option` codomain, `none` standing for the raised exception.
-/

namespace PPTGen

/-- Embedded Python values: `None`, `int`, `str`, `list`, `dict` with
string keys.  Dictionaries are association lists; as in Python, a
dictionary is assumed to bind each key at most once, and lookup returns
the binding of the key. -/
inductive PyVal where
  | vNone : PyVal
  | vInt : Int → PyVal
  | vStr : String → PyVal
  | vList : List PyVal → PyVal
  | vDict : List (String × PyVal) → PyVal

/-- Python `d[k]` / `d.get(k)` lookup on an embedded dictionary. -/
def dictGet (d : List (String × PyVal)) (k : String) : Option PyVal :=
  (d.find? (fun p => p.1 == k)).map (fun p => p.2)

/-- Python `k in d` for a dictionary. -/
def dictHas (d : List (String × PyVal)) (k : String) : Bool :=
  d.any (fun p => p.1 == k)

/-- Python truthiness on the embedded universe: `None`, `0`, `""`, `[]`
and the empty dict are falsy; everything else is truthy. -/
def pyTruthy : PyVal → Bool
  | .vNone => false
  | .vInt n => n != 0
  | .vStr s => s != ""
  | .vList l => !l.isEmpty
  | .vDict d => !d.isEmpty

mutual

/-- Python `==` on the embedded universe.  Values of different types
compare unequal; lists compare elementwise; dictionaries compare by key
lookup (Python dictionary equality is order-insensitive; the embedding
assumes unique keys, as Python guarantees). -/
def pyEq : PyVal → PyVal → Bool
  | .vNone, .vNone => true
  | .vInt a, .vInt b => a == b
  | .vStr a, .vStr b => a == b
  | .vList a, .vList b => pyEqList a b
  | .vDict a, .vDict b => a.length == b.length && pyEqDict a b
  | _, _ => false

def pyEqList : List PyVal → List PyVal → Bool
  | [], b => b.isEmpty
  | a :: as1, b =>
    match b with
    | [] => false
    | b1 :: bs => pyEq a b1 && pyEqList as1 bs

def pyEqDict : List (String × PyVal) → List (String × PyVal) → Bool
  | [], _ => true
  | (k, v) :: rest, b =>
    (match dictGet b k with
     | some w => pyEq v w
     | none => false) && pyEqDict rest b

end

mutual

/-- Python `repr` on the embedded universe (string escaping inside
`repr` of a `str` is not reproduced; no claim evaluates it). -/
def pyRepr : PyVal → String
  | .vNone => "None"
  | .vInt n => toString n
  | .vStr s => "\x27" ++ s ++ "\x27"
  | .vList l => "[" ++ pyReprList l ++ "]"
  | .vDict d => "\x7b" ++ pyReprDict d ++ "\x7d"

def pyReprList : List PyVal → String
  | [] => ""
  | [x] => pyRepr x
  | x :: xs => pyRepr x ++ ", " ++ pyReprList xs

def pyReprDict : List (String × PyVal) → String
  | [] => ""
  | [(k, v)] => "\x27" ++ k ++ "\x27: " ++ pyRepr v
  | (k, v) :: xs => "\x27" ++ k ++ "\x27: " ++ pyRepr v ++ ", " ++ pyReprDict xs

end

/-- Python `str()` on the embedded universe. -/
def pyStr : PyVal → String
  | .vStr s => s
  | v => pyRepr v

/-- Python `x += t` for a string right operand `t`: defined when `x` is a
string (concatenation) or a list (extension by the characters of `t`,
each as a one-character string); raises `TypeError` (`none`) otherwise. -/
def pyAddStr : PyVal → String → Option PyVal
  | .vStr s, t => some (.vStr (s ++ t))
  | .vList l, t => some (.vList (l ++ t.data.map (fun c => .vStr (String.mk [c]))))
  | _, _ => none

/-! ## Response Extractor (`LLMHandler._extract_json_from_response`) -/

/-- Python `str.find(c)`: index of the first occurrence of `c`, `none` for
Python's `-1`. -/
def findChar (c : Char) : List Char → Option Nat
  | [] => none
  | x :: xs => if x = c then some 0 else (findChar c xs).map (· + 1)

/-- The brace-counting loop of `_extract_json_from_response`: scan the
characters, incrementing the counter on `{`, decrementing on `}`; when
the counter returns to `0` the scan stops and yields `some (i + 1)`, the
Python `end_idx` relative to the scan start.  `none` means the loop ran
off the end with the counter never returning to zero. -/
def scanBrace : List Char → Int → Option Nat
  | [], _ => none
  | c :: rest, depth =>
    if c = '{' then (scanBrace rest (depth + 1)).map (· + 1)
    else if c = '}' then
      if depth - 1 = 0 then some 1
      else (scanBrace rest (depth - 1)).map (· + 1)
    else (scanBrace rest depth).map (· + 1)

/-- Embeds `LLMHandler._extract_json_from_response` (llm_handler.py:227-248):
return the content unchanged when it has no `{`; otherwise return
`content[start_idx:end_idx]` where `start_idx` is the first `{` and
`end_idx` is where the brace counter returns to zero (`end_idx` stays
`start_idx`, giving the empty string, when it never does). -/
def extractJsonFromResponse (content : String) : String :=
  match findChar '{' content.data with
  | none => content
  | some start =>
    let tail := content.data.drop start
    String.mk (tail.take ((scanBrace tail 0).getD 0))

/-! ## Schema Validator (`LLMHandler._validate_outline_structure`) -/

/-- Contiguous-sublist test via `isPrefixOf`: Python `a in b` for strings. -/
def listInfix (needle : List Char) : List Char → Bool
  | [] => needle.isEmpty
  | h :: t => needle.isPrefixOf (h :: t) || listInfix needle t

/-- Python `k in v` for an arbitrary value `v`: key membership for a
dict, substring test for a string, elementwise `==` for a list; raises
`TypeError` (`none`) for `None`/`int`. -/
def pyIn (k : String) : PyVal → Option Bool
  | .vDict d => some (dictHas d k)
  | .vStr s => some (listInfix k.data s.data)
  | .vList l => some (l.any (fun v => pyEq (.vStr k) v))
  | _ => none

/-- Python `all(key in slide for key in ["slide_number", "title", "type"])`
with Python's short-circuit evaluation (an undefined membership test is
reached only if the earlier ones were true). -/
def slideHasKeys (s : PyVal) : Option Bool :=
  match pyIn "slide_number" s with
  | none => none
  | some false => some false
  | some true =>
    match pyIn "title" s with
    | none => none
    | some false => some false
    | some true => pyIn "type" s

/-- The `for slide in outline["slides"]` loop of
`_validate_outline_structure`: returns `false` as soon as a slide lacks
one of the required keys. -/
def validateSlides : List PyVal → Option Bool
  | [] => some true
  | s :: rest =>
    match slideHasKeys s with
    | none => none
    | some false => some false
    | some true => validateSlides rest

/-- Embeds `LLMHandler._validate_outline_structure` (llm_handler.py:250-266):
requires keys `title` and `slides`, `slides` a non-empty list, and every
slide to pass the key-membership test. -/
def validateOutlineStructure (outline : List (String × PyVal)) : Option Bool :=
  if !(dictHas outline "title" && dictHas outline "slides") then some false
  else
    match dictGet outline "slides" with
    | some (.vList slides) =>
      if slides.isEmpty then some false
      else validateSlides slides
    | _ => some false

/-! ## Bullet Extractor (`PowerPointBuilder._extract_bullet_points`) -/

/-- One iteration of the `for bullet in bullets` loop
(pptx_generator.py:167-178): a dict contributes its normalized
`point`/`details` text when `point` is truthy (and the `+=` may raise,
hence `Option`), a string passes through, anything else contributes
nothing. -/
def bulletEntry (bullet : PyVal) : Option (List PyVal) :=
  match bullet with
  | .vDict b =>
    let point := (dictGet b "point").getD (.vStr "")
    let details := (dictGet b "details").getD (.vStr "")
    if pyTruthy point then
      if pyTruthy details && !(pyEq details point) then
        (pyAddStr point (": " ++ pyStr details)).map (fun bt => [bt])
      else some [point]
    else some []
  | .vStr s => some [.vStr s]
  | _ => some []

/-- The whole `for bullet in bullets` loop: concatenation of the
per-entry contributions, propagating a raised `TypeError`. -/
def bulletsLoop : List PyVal → Option (List PyVal)
  | [] => some []
  | b :: rest =>
    match bulletEntry b with
    | none => none
    | some contrib =>
      match bulletsLoop rest with
      | none => none
      | some tailPts => some (contrib ++ tailPts)

/-- The `elif 'content' in slide_data` branch
(pptx_generator.py:181-200): accumulate, in order, `key_points`
verbatim (through `str`), `themes` prefixed `"Key theme: "`, and
`supporting_data` prefixed `"Supporting fact: "`, each only when the
key is present and maps to a list. -/
def contentBullets (c : List (String × PyVal)) : List PyVal :=
  (match dictGet c "key_points" with
   | some (.vList kps) => kps.map (fun p => .vStr (pyStr p))
   | _ => [])
  ++ (match dictGet c "themes" with
      | some (.vList ts) => ts.map (fun t => .vStr ("Key theme: " ++ pyStr t))
      | _ => [])
  ++ (match dictGet c "supporting_data" with
      | some (.vList ds) => ds.map (fun d => .vStr ("Supporting fact: " ++ pyStr d))
      | _ => [])

/-- Embeds `PowerPointBuilder._extract_bullet_points`
(pptx_generator.py:159-214).  The `if 'bullet_points' in
slide_data: ... elif 'content' in slide_data: ...` chain, followed by
the `if not bullet_points and 'key_points' in slide_data` fallback.
The final `max_bullets = 5` block only logs and never slices, so it has
no counterpart in the embedding. -/
def extractBulletPoints (slide : List (String × PyVal)) : Option (List PyVal) :=
  let step12 : Option (List PyVal) :=
    match dictGet slide "bullet_points" with
    | some bullets =>
      match bullets with
      | .vList bs => bulletsLoop bs
      | _ => some []
    | none =>
      match dictGet slide "content" with
      | some (.vDict c) => some (contentBullets c)
      | _ => some []
  match step12 with
  | none => none
  | some bps =>
    some (if bps.isEmpty && dictHas slide "key_points" then
            bps ++ (match dictGet slide "key_points" with
                    | some (.vList kps) => kps.map (fun p => .vStr (pyStr p))
                    | _ => [])
          else bps)

/-! ## Bullet rendering (`PowerPointBuilder._add_bullet_points`) -/

/-- Leading-whitespace trim on a character list. -/
def trimLeft (l : List Char) : List Char := l.dropWhile Char.isWhitespace

/-- Python `str.strip()`: trim whitespace at both ends.  (Python also
strips some further Unicode whitespace; the claims only exercise ASCII
whitespace, on which the two agree.) -/
def pyStrip (s : String) : String :=
  String.mk ((trimLeft ((trimLeft s.data).reverse)).reverse)

/-- The paragraphs actually written by
`PowerPointBuilder._add_bullet_points` (pptx_generator.py:234-246):
each entry is stripped and skipped when the stripped text is empty;
`.strip()` on a non-string entry raises (`none`). -/
def renderedBullets : List PyVal → Option (List String)
  | [] => some []
  | b :: rest =>
    match b with
    | .vStr s =>
      let cleaned := pyStrip s
      match renderedBullets rest with
      | none => none
      | some out => some (if cleaned = "" then out else cleaned :: out)
    | _ => none

/-! ## Theme/Layout Resolver (`Theme.get_layout`) -/

/-- Embeds `SlideLayout` (slide_templates.py:42-53): a layout id and the
placeholder indices (`-1` is the "no such placeholder" sentinel). -/
structure SlideLayout where
  layout_id : Int
  layout_name : String
  title_placeholder_idx : Int
  content_placeholder_idx : Int
deriving DecidableEq

/-- The `self.layouts` mapping built in `Theme.__init__`
(slide_templates.py:76-83); identical for every theme. -/
def themeLayouts : List (String × SlideLayout) :=
  [("title", ⟨0, "Title Slide", 0, 1⟩),
   ("content", ⟨1, "Content with Bullets", 0, 1⟩),
   ("section_header", ⟨2, "Section Header", 0, -1⟩),
   ("two_content", ⟨3, "Two Content", 0, 1⟩),
   ("comparison", ⟨4, "Comparison", 0, 1⟩),
   ("blank", ⟨6, "Blank", -1, -1⟩)]

/-- Embeds `Theme.get_layout` (slide_templates.py:85-89): look the type up in
`self.layouts`; `none` stands for the raised `ValueError`. -/
def getLayout (layout_type : String) : Option SlideLayout :=
  (themeLayouts.find? (fun p => p.1 == layout_type)).map (fun p => p.2)

/-! ## Deck Assembler (`PowerPointBuilder.add_slide` and the assembly
block of `main.py`)

The document-writing backend (python-pptx) is an external collaborator;
the embedding records, per constructed slide, which construction
routine ran, the layout it resolved, and the text it handed to the
placeholders. -/

/-- Which slide-construction routine built a slide. -/
inductive SlideKind where
  | title : SlideKind
  | content : SlideKind
  | sectionHeader : SlideKind
deriving DecidableEq

/-- The body text handed to the content placeholder. -/
inductive SlideBody where
  | subtitle : PyVal → SlideBody
  | bullets : List String → SlideBody
  | rawText : PyVal → SlideBody
  | noBody : SlideBody

/-- One constructed slide as handed to the backend. -/
structure RenderedSlide where
  kind : SlideKind
  layout : SlideLayout
  titleText : PyVal
  body : SlideBody

/-- Embeds `PowerPointBuilder._add_title_slide` (pptx_generator.py:71-99). -/
def addTitleSlide (slide : List (String × PyVal)) : Option RenderedSlide :=
  match getLayout "title" with
  | none => none
  | some layout =>
    let title := (dictGet slide "title").getD (.vStr "Presentation Title")
    let subtitle0 := (dictGet slide "subtitle").getD (.vStr "")
    let subtitle :=
      if !(pyTruthy subtitle0) && dictHas slide "content" then
        match (dictGet slide "content").getD .vNone with
        | .vDict c => (dictGet c "subtitle").getD (.vStr "")
        | .vStr s => .vStr s
        | _ => subtitle0
      else subtitle0
    some ⟨.title, layout, title, .subtitle subtitle⟩

/-- Embeds `PowerPointBuilder._add_content_slide` (pptx_generator.py:101-123),
also the body of `_add_conclusion_slide`, which delegates to it
(pptx_generator.py:155-157). -/
def addContentSlide (slide : List (String × PyVal)) : Option RenderedSlide :=
  match getLayout "content" with
  | none => none
  | some layout =>
    let title := (dictGet slide "title").getD (.vStr "Content")
    match extractBulletPoints slide with
    | none => none
    | some bps =>
      if !bps.isEmpty then
        match renderedBullets bps with
        | none => none
        | some out => some ⟨.content, layout, title, .bullets out⟩
      else
        let contentText := (dictGet slide "content").getD (.vStr "Content goes here")
        let contentText :=
          match contentText with
          | .vDict d => PyVal.vStr (pyStr (.vDict d))
          | v => v
        some ⟨.content, layout, title, .rawText contentText⟩

/-- Embeds `PowerPointBuilder._add_section_header_slide`
(pptx_generator.py:143-153). -/
def addSectionHeaderSlide (slide : List (String × PyVal)) : Option RenderedSlide :=
  match getLayout "section_header" with
  | none => none
  | some layout =>
    some ⟨.sectionHeader, layout, (dictGet slide "title").getD (.vStr "Section"), .noBody⟩

/-- Embeds the `PowerPointBuilder` state: the running slide count and the slides
handed to the backend document. -/
structure Builder where
  slide_count : Nat
  slides : List RenderedSlide

/-- A fresh `PowerPointBuilder()` (pptx_generator.py:24-33). -/
def initBuilder : Builder := ⟨0, []⟩

/-- Embeds `PowerPointBuilder.add_slide` (pptx_generator.py:37-69): dispatch on
`slide_data.get('type', 'content')`; unrecognized types are logged as a
warning and routed to `_add_content_slide`; on success the slide counter
is incremented; an exception from a routine propagates (`none`). -/
def addSlide (b : Builder) (slide_data : List (String × PyVal)) : Option Builder :=
  let slide_type := (dictGet slide_data "type").getD (.vStr "content")
  let rs : Option RenderedSlide :=
    if pyEq slide_type (.vStr "title") then addTitleSlide slide_data
    else if pyEq slide_type (.vStr "content") then addContentSlide slide_data
    else if pyEq slide_type (.vStr "section_header") then addSectionHeaderSlide slide_data
    else if pyEq slide_type (.vStr "conclusion") then addContentSlide slide_data
    else addContentSlide slide_data
  match rs with
  | none => none
  | some s => some ⟨b.slide_count + 1, b.slides ++ [s]⟩

/-- The loop `for slide_data in ...: builder.add_slide(slide_data)`
(main.py:268-269). -/
def addSlidesLoop (b : Builder) : List (List (String × PyVal)) → Option Builder
  | [] => some b
  | sd :: rest =>
    match addSlide b sd with
    | none => none
    | some b2 => addSlidesLoop b2 rest

/-- The loop `for slide_data in enhanced_slides: if slide_data.get('type') !=
'title': builder.add_slide(slide_data)` (main.py:280-282). -/
def addNonTitleSlidesLoop (b : Builder) : List (List (String × PyVal)) → Option Builder
  | [] => some b
  | sd :: rest =>
    if pyEq ((dictGet sd "type").getD .vNone) (.vStr "title") then
      addNonTitleSlidesLoop b rest
    else
      match addSlide b sd with
      | none => none
      | some b2 => addNonTitleSlidesLoop b2 rest

/-- The deck-assembly block of `main` (main.py:252-282): compute
`first_slide`, then either reuse the outline's leading title slide and
append `enhanced_slides[1:]` unconditionally, or synthesize a title
slide from the outline's top-level title and append the enhanced slides
whose type tag is not `'title'`.  `none` stands for a raised exception
(subscripting a non-list `slides` value, `.get` on a non-dict first
entry, or a failure inside `add_slide`). -/
def assembleDeck (outline : List (String × PyVal)) (topic : String)
    (enhanced : List (List (String × PyVal))) : Option Builder :=
  let slidesVal := (dictGet outline "slides").getD .vNone
  let firstSlide : Option (List (String × PyVal)) :=
    if pyTruthy slidesVal then
      match slidesVal with
      | .vList (x :: _) =>
        (match x with
         | .vDict d => some d
         | _ => none)
      | _ => none
    else some []
  match firstSlide with
  | none => none
  | some fs =>
    if pyEq ((dictGet fs "type").getD .vNone) (.vStr "title") then
      let titleData := [("type", PyVal.vStr "title"),
                        ("title", (dictGet fs "title").getD (.vStr topic)),
                        ("subtitle", (dictGet fs "subtitle").getD (.vStr "A Comprehensive Overview"))]
      match addSlide initBuilder titleData with
      | none => none
      | some b1 => addSlidesLoop b1 enhanced.tail
    else
      let titleData := [("type", PyVal.vStr "title"),
                        ("title", (dictGet outline "title").getD (.vStr topic)),
                        ("subtitle", PyVal.vStr "A Comprehensive Overview")]
      match addSlide initBuilder titleData with
      | none => none
      | some b1 => addNonTitleSlidesLoop b1 enhanced

/-! ## Specification-side predicates and helper notions -/

/-- Contribution of one character to the brace nesting depth. -/
def braceDelta (c : Char) : Int :=
  if c = '{' then 1 else if c = '}' then -1 else 0

/-- Brace nesting depth of a character sequence. -/
def braceDepth : List Char → Int
  | [] => 0
  | c :: l => braceDelta c + braceDepth l

/-- No object-opening marker occurs in the sequence. -/
abbrev NoOpenBrace (l : List Char) : Prop := ∀ c ∈ l, c ≠ '{'

/-- No brace character at all occurs in the sequence. -/
abbrev NoBrace (l : List Char) : Prop := ∀ c ∈ l, c ≠ '{' ∧ c ≠ '}'

/-- A minimal balanced brace-delimited object: starts with `{`, its
total depth is zero, and the depth of every proper non-empty prefix is
positive (so the depth first returns to zero exactly at the end). -/
structure IsBalancedObj (obj : List Char) : Prop where
  head_open : obj.head? = some '{'
  depth_zero : braceDepth obj = 0
  proper_pos : ∀ k, k < obj.length → 0 < k → 0 < braceDepth (obj.take k)

/-- Transcribed from the spec, §4.2/§8 (to be compared with the source
validator): a slide entry "has `slide_number`, `title`, `type`" — an
object with the three keys. -/
def slideSpecKeysPerSpec (s : PyVal) : Bool :=
  match s with
  | .vDict d => dictHas d "slide_number" && dictHas d "title" && dictHas d "type"
  | _ => false

/-- Transcribed from the spec, §4.2/§8 (to be compared with the source
validator): the payload has keys `title` and `slides`, `slides` is a
non-empty sequence, and every element has `slide_number`, `title`,
`type`. -/
def outlineValidPerSpec (outline : List (String × PyVal)) : Bool :=
  dictHas outline "title" &&
  match dictGet outline "slides" with
  | some (.vList slides) => !slides.isEmpty && slides.all slideSpecKeysPerSpec
  | _ => false

/-- Tests whether an embedded value is a dictionary. -/
def isDictVal : PyVal → Bool
  | .vDict _ => true
  | _ => false

/-- A string is blank: empty or consisting of whitespace only. -/
def isWhitespaceOnly (s : String) : Bool := s.data.all Char.isWhitespace

/-- A slide-data object offering all three bullet sources: a top-level
`bullet_points` list whose only entry is an empty dict (so its
normalization is empty), a `content.key_points` list, and a top-level
`key_points` list. -/
def c1Slide : List (String × PyVal) :=
  [("bullet_points", .vList [.vDict []]),
   ("content", .vDict [("key_points", .vList [.vStr "a"])]),
   ("key_points", .vList [.vStr "b"])]

/-- An outline whose first slide IS tagged `title` and whose third slide
is tagged `title` again. -/
def c3Outline : List (String × PyVal) :=
  [("title", .vStr "Topic T"),
   ("slides", .vList
     [.vDict [("slide_number", .vInt 1), ("type", .vStr "title"), ("title", .vStr "Main")],
      .vDict [("slide_number", .vInt 2), ("type", .vStr "content"), ("title", .vStr "B")],
      .vDict [("slide_number", .vInt 3), ("type", .vStr "title"), ("title", .vStr "Dup")]])]

/-- The enhanced-slide list `main` builds from `c3Outline` (type, title
and slide_number copied per slide). -/
def c3Enhanced : List (List (String × PyVal)) :=
  [[("type", .vStr "title"), ("title", .vStr "Main"), ("slide_number", .vInt 1)],
   [("type", .vStr "content"), ("title", .vStr "B"), ("slide_number", .vInt 2)],
   [("type", .vStr "title"), ("title", .vStr "Dup"), ("slide_number", .vInt 3)]]

/-- An outline whose first slide is NOT tagged `title`. -/
def c3OutlineNoTitle : List (String × PyVal) :=
  [("title", .vStr "Topic T"),
   ("slides", .vList
     [.vDict [("slide_number", .vInt 1), ("type", .vStr "content"), ("title", .vStr "A")]])]

/-- An enhanced-slide list containing a stray `title`-tagged entry. -/
def c3EnhancedNoTitle : List (List (String × PyVal)) :=
  [[("type", .vStr "content"), ("title", .vStr "A"), ("slide_number", .vInt 1)],
   [("type", .vStr "title"), ("title", .vStr "Stray")]]

/-- An outline payload whose `slides` entry holds a plain string that
contains the three key names as substrings. -/
def c4Outline : List (String × PyVal) :=
  [("title", .vStr "t"),
   ("slides", .vList [.vStr "slide_number title type"])]

/-- A structurally valid outline payload. -/
def c4GoodOutline : List (String × PyVal) :=
  [("title", .vStr "T"),
   ("slides", .vList
     [.vDict [("slide_number", .vInt 1), ("title", .vStr "A"), ("type", .vStr "title")]])]

/-! ## Response Extractor lemmas -/

theorem braceDepth_append (a b : List Char) :
    braceDepth (a ++ b) = braceDepth a + braceDepth b := by
  induction a with
  | nil => simp [braceDepth]
  | cons c t ih => simp [braceDepth, ih]; ring

theorem findChar_append_no (pre : List Char) (h : NoOpenBrace pre) (rest : List Char) :
    findChar '{' (pre ++ '{' :: rest) = some pre.length := by
  induction pre with
  | nil => simp [findChar]
  | cons c t ih =>
    have hc : c ≠ '{' := h c (by simp)
    have ht : NoOpenBrace t := fun x hx => h x (List.mem_cons_of_mem _ hx)
    simp [findChar, hc, ih ht]

theorem findChar_none (l : List Char) (h : NoOpenBrace l) : findChar '{' l = none := by
  induction l with
  | nil => rfl
  | cons c t ih =>
    have hc : c ≠ '{' := h c (by simp)
    have ht : NoOpenBrace t := fun x hx => h x (List.mem_cons_of_mem _ hx)
    simp [findChar, hc, ih ht]

theorem scanBrace_closes (obj : List Char) : ∀ (rest : List Char) (d : Int), 0 < d →
    (∀ k, k < obj.length → 0 < k → 0 < d + braceDepth (obj.take k)) →
    d + braceDepth obj = 0 →
    scanBrace (obj ++ rest) d = some obj.length := by
  induction obj with
  | nil =>
    intro rest d hd _ hzero
    simp [braceDepth] at hzero
    omega
  | cons c t ih =>
    intro rest d hd hpre hzero
    by_cases hc1 : c = '{'
    · subst hc1
      have hstep : scanBrace (t ++ rest) (d + 1) = some t.length := by
        apply ih rest (d + 1) (by omega)
        · intro k hk hk0
          have := hpre (k + 1) (by simpa using Nat.succ_lt_succ hk) (by omega)
          simp [braceDepth, braceDelta] at this
          omega
        · simp [braceDepth, braceDelta] at hzero
          omega
      simp [scanBrace, hstep]
    · by_cases hc2 : c = '}'
      · subst hc2
        by_cases hd1 : d = 1
        · subst hd1
          have ht : t = [] := by
            by_contra h0
            have h1lt : 1 < ('}' :: t).length := by
              simp [List.length_pos.mpr h0]
            have := hpre 1 h1lt (by omega)
            simp [braceDepth, braceDelta] at this
          subst ht
          simp [scanBrace]
        · have hd2 : 0 < d - 1 := by
            rcases lt_or_ge 1 d with h | h
            · omega
            · omega
          have hstep : scanBrace (t ++ rest) (d - 1) = some t.length := by
            apply ih rest (d - 1) hd2
            · intro k hk hk0
              have := hpre (k + 1) (by simpa using Nat.succ_lt_succ hk) (by omega)
              simp [braceDepth, braceDelta] at this
              omega
            · simp [braceDepth, braceDelta] at hzero
              omega
          have hne : ¬(d - 1 = 0) := by omega
          simp [scanBrace, hc1, hne, hstep]
      · have hstep : scanBrace (t ++ rest) d = some t.length := by
          apply ih rest d hd
          · intro k hk hk0
            have := hpre (k + 1) (by simpa using Nat.succ_lt_succ hk) (by omega)
            simp [braceDepth, braceDelta, hc1, hc2] at this
            omega
          · simp [braceDepth, braceDelta, hc1, hc2] at hzero
            omega
        simp [scanBrace, hc1, hc2, hstep]

theorem scanBrace_never (l : List Char) : ∀ d : Int, 0 < d →
    (∀ k, k ≤ l.length → 0 < k → d + braceDepth (l.take k) ≠ 0) →
    scanBrace l d = none := by
  induction l with
  | nil => intro d _ _; rfl
  | cons c t ih =>
    intro d hd h
    by_cases hc1 : c = '{'
    · subst hc1
      have hstep : scanBrace t (d + 1) = none := by
        apply ih (d + 1) (by omega)
        intro k hk hk0
        have := h (k + 1) (by simpa using Nat.succ_le_succ hk) (by omega)
        simp [braceDepth, braceDelta] at this
        omega
      simp [scanBrace, hstep]
    · by_cases hc2 : c = '}'
      · subst hc2
        have h1 := h 1 (by simp) (by omega)
        simp [braceDepth, braceDelta] at h1
        have hne : ¬(d - 1 = 0) := by omega
        have hd2 : 0 < d - 1 := by omega
        have hstep : scanBrace t (d - 1) = none := by
          apply ih (d - 1) hd2
          intro k hk hk0
          have := h (k + 1) (by simpa using Nat.succ_le_succ hk) (by omega)
          simp [braceDepth, braceDelta] at this
          omega
        simp [scanBrace, hc1, hne, hstep]
      · have hstep : scanBrace t d = none := by
          apply ih d hd
          intro k hk hk0
          have := h (k + 1) (by simpa using Nat.succ_le_succ hk) (by omega)
          simp [braceDepth, braceDelta, hc1, hc2] at this
          omega
        simp [scanBrace, hc1, hc2, hstep]

/-- C2: for every input of the form `pre ++ obj ++ post` with `pre` and
`post` free of brace characters and `obj` a minimal balanced
brace-delimited object, the Response Extractor returns exactly `obj`
(nested objects handled by depth counting, trailing text ignored); and
for every input containing no `{` at all it returns the input
unchanged. -/
theorem response_extractor_correct :
    (∀ pre obj post : List Char, NoBrace pre → IsBalancedObj obj → NoBrace post →
        extractJsonFromResponse (String.mk (pre ++ obj ++ post)) = String.mk obj) ∧
    (∀ s : String, NoOpenBrace s.data → extractJsonFromResponse s = s) := by
  constructor
  · intro pre obj post hpre hobj _hpost
    obtain ⟨hhead, hzero, hprop⟩ := hobj
    obtain ⟨obj2, rfl⟩ : ∃ t, obj = '{' :: t := by
      cases obj with
      | nil => simp at hhead
      | cons c t =>
        simp at hhead
        exact ⟨t, by rw [hhead]⟩
    have hpre' : NoOpenBrace pre := fun c hc => (hpre c hc).1
    have hassoc : pre ++ '{' :: obj2 ++ post = pre ++ '{' :: (obj2 ++ post) := by
      simp
    have hfind : findChar '{' (pre ++ '{' :: (obj2 ++ post)) = some pre.length :=
      findChar_append_no pre hpre' (obj2 ++ post)
    have hdrop : (pre ++ '{' :: (obj2 ++ post)).drop pre.length = '{' :: (obj2 ++ post) :=
      List.drop_left pre ('{' :: (obj2 ++ post))
    have hscan : scanBrace ('{' :: (obj2 ++ post)) 0 = some (obj2.length + 1) := by
      have hclose : scanBrace (obj2 ++ post) 1 = some obj2.length := by
        apply scanBrace_closes obj2 post 1 (by omega)
        · intro k hk hk0
          have := hprop (k + 1) (by simpa using Nat.succ_lt_succ hk) (by omega)
          simp [braceDepth, braceDelta] at this
          omega
        · simp [braceDepth, braceDelta] at hzero
          omega
      simp [scanBrace, hclose]
    have htake : ('{' :: (obj2 ++ post)).take (obj2.length + 1) = '{' :: obj2 := by
      simp [List.take_left]
    simp only [extractJsonFromResponse, hassoc]
    simp only [String.mk] at *
    simp [hfind, hdrop, hscan, htake]
  · intro s h
    simp only [extractJsonFromResponse]
    rw [findChar_none s.data h]

/-- Witness for `response_extractor_correct` at the concrete input
`Sure! {"a": {}} done` and at a brace-free input. -/
theorem response_extractor_correct_witness :
    extractJsonFromResponse (String.mk ("Sure! ".data ++ "\x7b\x22a\x22: \x7b\x7d\x7d".data ++ " done".data))
      = String.mk "\x7b\x22a\x22: \x7b\x7d\x7d".data ∧
    extractJsonFromResponse "no braces" = "no braces" :=
  ⟨response_extractor_correct.1 "Sure! ".data "\x7b\x22a\x22: \x7b\x7d\x7d".data " done".data
      (by decide) ⟨by decide, by decide, by decide⟩ (by decide),
   response_extractor_correct.2 "no braces" (by decide)⟩

/-- C10: for every input containing a `{` whose brace nesting depth,
counted from the first `{`, never returns to zero, the Response
Extractor returns the empty string. -/
theorem response_extractor_unbalanced (pre tl : List Char)
    (hpre : NoOpenBrace pre) (hhead : tl.head? = some '{')
    (hnz : ∀ k, k ≤ tl.length → 0 < k → braceDepth (tl.take k) ≠ 0) :
    extractJsonFromResponse (String.mk (pre ++ tl)) = "" := by
  obtain ⟨t2, rfl⟩ : ∃ t, tl = '{' :: t := by
    cases tl with
    | nil => simp at hhead
    | cons c t =>
      simp at hhead
      exact ⟨t, by rw [hhead]⟩
  have hfind : findChar '{' (pre ++ '{' :: t2) = some pre.length :=
    findChar_append_no pre hpre t2
  have hdrop : (pre ++ '{' :: t2).drop pre.length = '{' :: t2 :=
    List.drop_left pre ('{' :: t2)
  have hscan : scanBrace ('{' :: t2) 0 = none := by
    have hnone : scanBrace t2 1 = none := by
      apply scanBrace_never t2 1 (by omega)
      intro k hk hk0
      have := hnz (k + 1) (by simpa using Nat.succ_le_succ hk) (by omega)
      simp [braceDepth, braceDelta] at this
      omega
    simp [scanBrace, hnone]
  simp only [extractJsonFromResponse]
  simp only [String.mk] at *
  simp [hfind, hdrop, hscan]

/-- Witness for `response_extractor_unbalanced` at the concrete input
`ab{{cd`. -/
theorem response_extractor_unbalanced_witness :
    extractJsonFromResponse (String.mk ("ab".data ++ "\x7b\x7bcd".data)) = "" :=
  response_extractor_unbalanced "ab".data "\x7b\x7bcd".data (by decide) (by decide) (by decide)

/-! ## Schema Validator lemmas -/

theorem dictHas_eq_isSome (d : List (String × PyVal)) (k : String) :
    dictHas d k = (dictGet d k).isSome := by
  induction d with
  | nil => rfl
  | cons p t ih =>
    by_cases h : p.1 == k
    · simp [dictHas, dictGet, List.find?_cons, h]
    · simp only [dictHas, List.any_cons, dictGet, List.find?_cons] at *
      simp [h, ih, dictGet]

theorem slideHasKeys_dict (d : List (String × PyVal)) :
    slideHasKeys (.vDict d) = some (slideSpecKeysPerSpec (.vDict d)) := by
  cases h1 : dictHas d "slide_number" <;> cases h2 : dictHas d "title" <;>
    cases h3 : dictHas d "type" <;>
      simp [slideHasKeys, pyIn, slideSpecKeysPerSpec, h1, h2, h3]

theorem validateSlides_all_dicts (sl : List PyVal) (h : ∀ s ∈ sl, isDictVal s = true) :
    validateSlides sl = some (sl.all slideSpecKeysPerSpec) := by
  induction sl with
  | nil => rfl
  | cons s t ih =>
    have hs := h s (List.mem_cons_self s t)
    have ht : ∀ x ∈ t, isDictVal x = true := fun x hx => h x (List.mem_cons_of_mem _ hx)
    cases s with
    | vDict d =>
      rw [List.all_cons]
      cases hkeys : slideSpecKeysPerSpec (.vDict d) <;>
        simp [validateSlides, slideHasKeys_dict d, hkeys, ih ht]
    | vNone => simp [isDictVal] at hs
    | vInt n => simp [isDictVal] at hs
    | vStr a => simp [isDictVal] at hs
    | vList l => simp [isDictVal] at hs

/-- Counterexample to C4 as stated: the payload `{title: "t", slides:
["slide_number title type"]}` is accepted by the Schema Validator (the
per-element membership test on a string element is Python's substring
test), although its single `slides` element is not an object and has no
keys, so the claimed validity condition does not hold of it. -/
theorem outline_validator_cex :
    validateOutlineStructure c4Outline = some true ∧
    outlineValidPerSpec c4Outline = false := by
  exact ⟨by decide, by decide⟩

/-- C4 (amended): provided every element of the `slides` list is an
object (a dict), the Schema Validator accepts a decoded outline payload
if and only if it has keys `title` and `slides`, `slides` is a
non-empty list, and every element of `slides` has keys `slide_number`,
`title` and `type`; moreover every payload missing `slides` or whose
`slides` is an empty list is rejected unconditionally. -/
theorem outline_validator_iff (outline : List (String × PyVal))
    (hslides : ∀ sl, dictGet outline "slides" = some (.vList sl) → ∀ s ∈ sl, isDictVal s = true) :
    (validateOutlineStructure outline = some true ↔ outlineValidPerSpec outline = true) ∧
    (dictHas outline "slides" = false → validateOutlineStructure outline = some false) ∧
    (dictGet outline "slides" = some (.vList []) → validateOutlineStructure outline = some false) := by
  refine ⟨?_, ?_, ?_⟩
  · unfold validateOutlineStructure outlineValidPerSpec
    by_cases h1 : dictHas outline "title"
    · by_cases h2 : dictHas outline "slides"
      · simp only [h1, h2, Bool.and_self, Bool.not_true, Bool.false_eq_true, if_false,
          Bool.true_and]
        cases hget : dictGet outline "slides" with
        | none =>
          rw [dictHas_eq_isSome, hget] at h2
          simp at h2
        | some v =>
          cases v with
          | vList sl =>
            by_cases he : sl.isEmpty
            · have : sl = [] := by simpa using he
              subst this
              simp
            · have hv := validateSlides_all_dicts sl (hslides sl hget)
              cases hall : sl.all slideSpecKeysPerSpec <;>
                rw [hall] at hv <;> simp [he, hv] <;> simpa using hall
          | vNone => simp
          | vInt n => simp
          | vStr a => simp
          | vDict d2 => simp
      · have hnone : dictGet outline "slides" = none := by
          rw [dictHas_eq_isSome] at h2
          cases hg : dictGet outline "slides" with
          | none => rfl
          | some v => rw [hg] at h2; simp at h2
        simp [h1, h2, hnone]
    · simp [h1]
  · intro h
    simp [validateOutlineStructure, h]
  · intro h
    have hh : dictHas outline "slides" = true := by
      rw [dictHas_eq_isSome, h]
      rfl
    by_cases h1 : dictHas outline "title" <;>
      simp [validateOutlineStructure, h1, hh, h]

/-- Witness for `outline_validator_iff`: a structurally valid concrete
outline is accepted. -/
theorem outline_validator_iff_witness :
    validateOutlineStructure c4GoodOutline = some true :=
  (outline_validator_iff c4GoodOutline (fun sl h => by
      simp [c4GoodOutline, dictGet, List.find?] at h
      subst h
      decide)).1.mpr (by decide)

/-! ## Theme/Layout Resolver and Deck Assembler lemmas -/

theorem pyEq_vStr_iff (v : PyVal) (s : String) :
    pyEq v (.vStr s) = true ↔ v = .vStr s := by
  cases v <;> simp [pyEq]

theorem addContentSlide_spec (sd : List (String × PyVal)) (rs : RenderedSlide)
    (h : addContentSlide sd = some rs) :
    rs.kind = .content ∧ rs.layout = ⟨1, "Content with Bullets", 0, 1⟩ := by
  unfold addContentSlide at h
  rw [show getLayout "content" = some ⟨1, "Content with Bullets", 0, 1⟩ from rfl] at h
  simp only [] at h
  cases hx : extractBulletPoints sd with
  | none => rw [hx] at h; simp at h
  | some bps =>
    rw [hx] at h
    by_cases hb : bps.isEmpty
    · simp [hb] at h
      cases h
      exact ⟨rfl, rfl⟩
    · simp [hb] at h
      cases hy : renderedBullets bps with
      | none => rw [hy] at h; simp at h
      | some out =>
        rw [hy] at h
        simp at h
        cases h
        exact ⟨rfl, rfl⟩

theorem addSectionHeaderSlide_spec (sd : List (String × PyVal)) (rs : RenderedSlide)
    (h : addSectionHeaderSlide sd = some rs) :
    rs.kind = .sectionHeader ∧ rs.layout = ⟨2, "Section Header", 0, -1⟩ := by
  unfold addSectionHeaderSlide at h
  rw [show getLayout "section_header" = some ⟨2, "Section Header", 0, -1⟩ from rfl] at h
  simp at h
  cases h
  exact ⟨rfl, rfl⟩

theorem addTitleSlide_spec (sd : List (String × PyVal)) (rs : RenderedSlide)
    (h : addTitleSlide sd = some rs) :
    rs.kind = .title ∧ rs.titleText = (dictGet sd "title").getD (.vStr "Presentation Title") := by
  unfold addTitleSlide at h
  rw [show getLayout "title" = some ⟨0, "Title Slide", 0, 1⟩ from rfl] at h
  simp at h
  cases h
  exact ⟨rfl, rfl⟩

/-- C5: the resolver resolves the six named layouts to their
`SlideLayout` records, the conclusion-slide routine builds its slide
with the `content` layout (`_add_conclusion_slide` delegates to
`_add_content_slide`), and the resolver fails with an error for every
type tag outside the named six. -/
theorem layout_resolver_domain :
    (getLayout "title" = some ⟨0, "Title Slide", 0, 1⟩ ∧
     getLayout "content" = some ⟨1, "Content with Bullets", 0, 1⟩ ∧
     getLayout "section_header" = some ⟨2, "Section Header", 0, -1⟩ ∧
     getLayout "two_content" = some ⟨3, "Two Content", 0, 1⟩ ∧
     getLayout "comparison" = some ⟨4, "Comparison", 0, 1⟩ ∧
     getLayout "blank" = some ⟨6, "Blank", -1, -1⟩) ∧
    (∀ sd b b2, pyEq ((dictGet sd "type").getD (.vStr "content")) (.vStr "conclusion") = true →
        addSlide b sd = some b2 →
        ∃ rs, b2.slides = b.slides ++ [rs] ∧ rs.layout = ⟨1, "Content with Bullets", 0, 1⟩) ∧
    (∀ t : String, t ∉ ["title", "content", "section_header", "two_content", "comparison", "blank"] →
        getLayout t = none) := by
  refine ⟨⟨rfl, rfl, rfl, rfl, rfl, rfl⟩, ?_, ?_⟩
  · intro sd b b2 htype hadd
    unfold addSlide at hadd
    rw [(pyEq_vStr_iff _ _).mp htype] at hadd
    simp only [pyEq, beq_iff_eq] at hadd
    norm_num at hadd
    cases hc : addContentSlide sd with
    | none => rw [hc] at hadd; simp at hadd
    | some rs =>
      rw [hc] at hadd
      simp at hadd
      refine ⟨rs, ?_, (addContentSlide_spec sd rs hc).2⟩
      rw [← hadd]
  · intro t ht
    simp only [List.mem_cons, List.not_mem_nil, or_false, not_or] at ht
    obtain ⟨h1, h2, h3, h4, h5, h6⟩ := ht
    have e1 : ("title" == t) = false := beq_eq_false_iff_ne.mpr (fun h => h1 h.symm)
    have e2 : ("content" == t) = false := beq_eq_false_iff_ne.mpr (fun h => h2 h.symm)
    have e3 : ("section_header" == t) = false := beq_eq_false_iff_ne.mpr (fun h => h3 h.symm)
    have e4 : ("two_content" == t) = false := beq_eq_false_iff_ne.mpr (fun h => h4 h.symm)
    have e5 : ("comparison" == t) = false := beq_eq_false_iff_ne.mpr (fun h => h5 h.symm)
    have e6 : ("blank" == t) = false := beq_eq_false_iff_ne.mpr (fun h => h6 h.symm)
    simp [getLayout, themeLayouts, List.find?, e1, e2, e3, e4, e5, e6]

/-- Witness for `layout_resolver_domain`: the unknown tag `timeline`
fails to resolve, and a concrete `conclusion`-tagged slide is built on
the `content` layout. -/
theorem layout_resolver_domain_witness :
    getLayout "timeline" = none ∧
    (∃ rs, (⟨1, [⟨.content, ⟨1, "Content with Bullets", 0, 1⟩, .vStr "End",
          .rawText (.vStr "Content goes here")⟩]⟩ : Builder).slides = [] ++ [rs] ∧
        rs.layout = ⟨1, "Content with Bullets", 0, 1⟩) :=
  ⟨layout_resolver_domain.2.2 "timeline" (by decide),
   layout_resolver_domain.2.1 [("type", .vStr "conclusion"), ("title", .vStr "End")]
     initBuilder _ (by decide) rfl⟩

/-- C6: for every slide descriptor whose type tag is none of `title`,
`content`, `section_header`, `conclusion`, `add_slide` builds the slide
with the content-slide routine (warning logged), equals that routine's
outcome (so it never fails merely because the tag is unrecognized), and
on success increments the slide counter by exactly one. -/
theorem add_slide_unknown_type (b : Builder) (sd : List (String × PyVal))
    (h1 : pyEq ((dictGet sd "type").getD (.vStr "content")) (.vStr "title") = false)
    (h2 : pyEq ((dictGet sd "type").getD (.vStr "content")) (.vStr "content") = false)
    (h3 : pyEq ((dictGet sd "type").getD (.vStr "content")) (.vStr "section_header") = false)
    (h4 : pyEq ((dictGet sd "type").getD (.vStr "content")) (.vStr "conclusion") = false) :
    addSlide b sd = (match addContentSlide sd with
                     | none => none
                     | some s => some ⟨b.slide_count + 1, b.slides ++ [s]⟩) ∧
    (∀ b2, addSlide b sd = some b2 → b2.slide_count = b.slide_count + 1 ∧
        ∃ rs, addContentSlide sd = some rs ∧ b2.slides = b.slides ++ [rs] ∧ rs.kind = .content) := by
  have hfirst : addSlide b sd = (match addContentSlide sd with
      | none => none
      | some s => some ⟨b.slide_count + 1, b.slides ++ [s]⟩) := by
    unfold addSlide
    simp [h1, h2, h3, h4]
  refine ⟨hfirst, ?_⟩
  intro b2 hb2
  rw [hfirst] at hb2
  cases hc : addContentSlide sd with
  | none => rw [hc] at hb2; simp at hb2
  | some rs =>
    rw [hc] at hb2
    simp at hb2
    rw [← hb2]
    exact ⟨rfl, rs, rfl, rfl, (addContentSlide_spec sd rs hc).1⟩

/-- Witness for `add_slide_unknown_type`: a `timeline`-tagged descriptor
is added as a content slide and bumps the counter from 0 to 1. -/
theorem add_slide_unknown_type_witness :
    (⟨1, [⟨.content, ⟨1, "Content with Bullets", 0, 1⟩, .vStr "T",
        .rawText (.vStr "Content goes here")⟩]⟩ : Builder).slide_count
      = initBuilder.slide_count + 1 :=
  ((add_slide_unknown_type initBuilder [("type", .vStr "timeline"), ("title", .vStr "T")]
      (by decide) (by decide) (by decide) (by decide)).2 _ rfl).1

/-! ## Bullet Extractor theorems -/

theorem bulletsLoop_strings (ss : List String) :
    bulletsLoop (ss.map .vStr) = some (ss.map .vStr) := by
  induction ss with
  | nil => rfl
  | cons s t ih => simp [bulletsLoop, bulletEntry, ih]

/-- C7: a structured bullet entry with a non-empty `point` is displayed
as `point: details` when `details` is non-empty and differs from
`point`, and as `point` alone otherwise; a plain string entry passes
through unchanged. -/
theorem bullet_normalization (p d s : String) (hp : p ≠ "") :
    extractBulletPoints [("bullet_points",
        .vList [.vDict [("point", .vStr p), ("details", .vStr d)]])]
      = some [.vStr (if d ≠ "" ∧ d ≠ p then p ++ ": " ++ d else p)] ∧
    extractBulletPoints [("bullet_points", .vList [.vStr s])] = some [.vStr s] := by
  constructor
  · have hentry : bulletEntry (.vDict [("point", .vStr p), ("details", .vStr d)])
        = some [.vStr (if d ≠ "" ∧ d ≠ p then p ++ ": " ++ d else p)] := by
      unfold bulletEntry
      simp only [dictGet, List.find?, Option.getD]
      by_cases hd : d = ""
      · subst hd
        simp [pyTruthy, hp]
      · by_cases hdp : d = p
        · subst hdp
          simp [pyTruthy, pyEq, hp, hd]
        · simp [pyTruthy, pyEq, hp, hd, hdp, pyAddStr, pyStr, String.append_assoc]
    unfold extractBulletPoints
    simp [dictGet, dictHas, List.find?, bulletsLoop, hentry]
  · unfold extractBulletPoints
    simp [dictGet, dictHas, List.find?, bulletsLoop, bulletEntry]

/-- Witness for `bullet_normalization` at the concrete entry
`{point: "A", details: "A"}` (details dropped because equal) and the
plain string `"x"`. -/
theorem bullet_normalization_witness :
    extractBulletPoints [("bullet_points",
        .vList [.vDict [("point", .vStr "A"), ("details", .vStr "A")]])] = some [.vStr "A"] ∧
    extractBulletPoints [("bullet_points", .vList [.vStr "x"])] = some [.vStr "x"] := by
  have h := bullet_normalization "A" "A" "x" (by decide)
  refine ⟨?_, h.2⟩
  rw [h.1]
  simp

/-- C8: extraction never truncates.  The extractor's output on a
`bullet_points` list is exactly the per-entry accumulation (never a
prefix of it), and on lists of `n` plain strings — or a
`content.key_points` list of `n` strings — all `n` extracted bullets
are returned, for every `n`, including `n` greater than the soft target
of 5 (which is only logged). -/
theorem extraction_never_truncates :
    (∀ bs : List PyVal, extractBulletPoints [("bullet_points", .vList bs)] = bulletsLoop bs) ∧
    (∀ ss : List String,
        extractBulletPoints [("bullet_points", .vList (ss.map .vStr))] = some (ss.map .vStr)) ∧
    (∀ ss : List String,
        extractBulletPoints [("content", .vDict [("key_points", .vList (ss.map .vStr))])]
          = some (ss.map .vStr)) := by
  have key : ∀ bs : List PyVal, extractBulletPoints [("bullet_points", .vList bs)] = bulletsLoop bs := by
    intro bs
    unfold extractBulletPoints
    simp only [dictGet, dictHas, List.find?, List.any_cons, List.any_nil]
    cases hl : bulletsLoop bs with
    | none => simp [hl]
    | some bps => simp [hl]
  refine ⟨key, ?_, ?_⟩
  · intro ss
    rw [key, bulletsLoop_strings]
  · intro ss
    unfold extractBulletPoints contentBullets
    simp [dictGet, dictHas, List.find?, List.map_map, Function.comp, pyStr]

/-- Counterexample to C1 as stated: on `c1Slide` both `bullet_points`
(a non-empty list) and `content.key_points` (non-empty) are present,
yet the output is not the normalized `bullet_points` sequence (which is
empty, the only entry being an empty dict): the top-level `key_points`
fallback fires and its entry `"b"` appears in the output. -/
theorem bullet_precedence_cex :
    extractBulletPoints c1Slide = some [.vStr "b"] ∧
    bulletsLoop [.vDict []] = some [] ∧
    extractBulletPoints c1Slide ≠ some [] := by
  refine ⟨rfl, rfl, ?_⟩
  intro h
  rw [show extractBulletPoints c1Slide = some [PyVal.vStr "b"] from rfl] at h
  simp at h

/-- C1 (amended): for every slide-data object whose `bullet_points`
entry is a list with a non-empty normalization, the extractor's output
equals the normalized `bullet_points` sequence only — no entry derived
from `content.key_points`, `content.themes`, `content.supporting_data`
or top-level `key_points` appears (those branches are unreachable when
`bullet_points` is present and its normalization is non-empty). -/
theorem bullet_precedence (slide : List (String × PyVal)) (bs l : List PyVal)
    (hbp : dictGet slide "bullet_points" = some (.vList bs))
    (hloop : bulletsLoop bs = some l) (hne : l ≠ []) :
    extractBulletPoints slide = some l := by
  unfold extractBulletPoints
  rw [hbp]
  simp only [hloop]
  cases l with
  | nil => exact absurd rfl hne
  | cons x t => simp

/-- Witness for `bullet_precedence`: a slide offering all three bullet
sources yields only the normalized `bullet_points`. -/
theorem bullet_precedence_witness :
    extractBulletPoints [("bullet_points", .vList [.vStr "x"]),
        ("content", .vDict [("key_points", .vList [.vStr "a"])]),
        ("key_points", .vList [.vStr "b"])] = some [.vStr "x"] :=
  bullet_precedence _ [.vStr "x"] [.vStr "x"] rfl rfl (by simp)

/-! ## Bullet rendering theorems -/

theorem dropWhile_head_not {p : Char → Bool} : ∀ {l : List Char} {c : Char} {t : List Char},
    l.dropWhile p = c :: t → p c = false := by
  intro l
  induction l with
  | nil => intro c t h; simp [List.dropWhile] at h
  | cons a l' ih =>
    intro c t h
    by_cases ha : p a
    · rw [List.dropWhile_cons_of_pos ha] at h
      exact ih h
    · rw [List.dropWhile_cons_of_neg ha] at h
      cases h
      simpa using ha

theorem strip_not_blank (s : String) (h : pyStrip s ≠ "") :
    isWhitespaceOnly (pyStrip s) = false := by
  unfold pyStrip at *
  unfold isWhitespaceOnly trimLeft at *
  cases hd : ((s.data.dropWhile Char.isWhitespace).reverse).dropWhile Char.isWhitespace with
  | nil =>
    exfalso
    apply h
    rw [hd]
    rfl
  | cons c t =>
    have hc : c.isWhitespace = false := dropWhile_head_not hd
    show ((c :: t).reverse : List Char).all Char.isWhitespace = false
    cases hall : ((c :: t).reverse : List Char).all Char.isWhitespace with
    | false => rfl
    | true =>
      exfalso
      have := (List.all_eq_true.mp hall) c (by simp)
      rw [hc] at this
      exact Bool.false_ne_true this

/-- C9: the Bullet Extractor performs no blank filtering (its output can
contain a whitespace-only string), while the rendering step strips each
entry and skips the ones that are empty after stripping, so no
blank or whitespace-only paragraph is ever written to a slide. -/
theorem blank_policy :
    extractBulletPoints [("bullet_points", .vList [.vStr "   "])] = some [.vStr "   "] ∧
    renderedBullets [.vStr "   ", .vStr " a "] = some ["a"] ∧
    (∀ bps out, renderedBullets bps = some out → ∀ s ∈ out, isWhitespaceOnly s = false) := by
  refine ⟨rfl, rfl, ?_⟩
  intro bps
  induction bps with
  | nil =>
    intro out h s hs
    cases h
    simp at hs
  | cons b rest ih =>
    intro out h s hs
    cases b with
    | vStr s0 =>
      unfold renderedBullets at h
      cases hr : renderedBullets rest with
      | none => rw [hr] at h; simp at h
      | some out2 =>
        rw [hr] at h
        simp only [Option.some.injEq] at h
        by_cases hc : pyStrip s0 = ""
        · rw [if_pos hc] at h
          subst h
          exact ih out2 hr s hs
        · rw [if_neg hc] at h
          subst h
          rcases List.mem_cons.mp hs with rfl | hs'
          · exact strip_not_blank s0 hc
          · exact ih out2 hr s hs'
    | vNone => simp [renderedBullets] at h
    | vInt n => simp [renderedBullets] at h
    | vList l => simp [renderedBullets] at h
    | vDict d => simp [renderedBullets] at h

/-- Witness for `blank_policy`: the rendered output `["a"]` of the
bullet list `["   ", " a "]` has no blank entry. -/
theorem blank_policy_witness : isWhitespaceOnly "a" = false :=
  blank_policy.2.2 [.vStr "   ", .vStr " a "] ["a"] rfl "a" (by simp)

/-! ## Deck assembly theorems -/

theorem addSlide_nonTitle (b b2 : Builder) (sd : List (String × PyVal))
    (h : pyEq ((dictGet sd "type").getD .vNone) (.vStr "title") = false)
    (hadd : addSlide b sd = some b2) :
    ∃ rs, b2.slides = b.slides ++ [rs] ∧ b2.slide_count = b.slide_count + 1 ∧
      rs.kind ≠ .title := by
  have hfalse : pyEq ((dictGet sd "type").getD (.vStr "content")) (.vStr "title") = false := by
    cases hg : dictGet sd "type" with
    | none => rfl
    | some v => rw [hg] at h; simpa using h
  unfold addSlide at hadd
  simp only [hfalse, Bool.false_eq_true, if_false] at hadd
  have hkind : ∀ rs,
      (if pyEq ((dictGet sd "type").getD (.vStr "content")) (.vStr "content") = true then
          addContentSlide sd
        else if pyEq ((dictGet sd "type").getD (.vStr "content")) (.vStr "section_header") = true then
          addSectionHeaderSlide sd
        else if pyEq ((dictGet sd "type").getD (.vStr "content")) (.vStr "conclusion") = true then
          addContentSlide sd
        else addContentSlide sd) = some rs → rs.kind ≠ .title := by
    intro rs hrs
    split at hrs
    · rw [(addContentSlide_spec sd rs hrs).1]; decide
    · split at hrs
      · rw [(addSectionHeaderSlide_spec sd rs hrs).1]; decide
      · split at hrs
        · rw [(addContentSlide_spec sd rs hrs).1]; decide
        · rw [(addContentSlide_spec sd rs hrs).1]; decide
  cases ho : (if pyEq ((dictGet sd "type").getD (.vStr "content")) (.vStr "content") = true then
      addContentSlide sd
    else if pyEq ((dictGet sd "type").getD (.vStr "content")) (.vStr "section_header") = true then
      addSectionHeaderSlide sd
    else if pyEq ((dictGet sd "type").getD (.vStr "content")) (.vStr "conclusion") = true then
      addContentSlide sd
    else addContentSlide sd) with
  | none => rw [ho] at hadd; simp at hadd
  | some rs =>
    rw [ho] at hadd
    simp only [Option.some.injEq] at hadd
    subst hadd
    exact ⟨rs, rfl, rfl, hkind rs ho⟩

theorem addNonTitleSlidesLoop_spec : ∀ (l : List (List (String × PyVal))) (b b2 : Builder),
    addNonTitleSlidesLoop b l = some b2 →
    ∃ added, b2.slides = b.slides ++ added ∧ ∀ s ∈ added, s.kind ≠ .title := by
  intro l
  induction l with
  | nil =>
    intro b b2 h
    cases h
    exact ⟨[], by simp, by simp⟩
  | cons sd rest ih =>
    intro b b2 h
    unfold addNonTitleSlidesLoop at h
    by_cases hc : pyEq ((dictGet sd "type").getD .vNone) (.vStr "title") = true
    · rw [if_pos hc] at h
      exact ih b b2 h
    · rw [if_neg hc] at h
      have hc' : pyEq ((dictGet sd "type").getD .vNone) (.vStr "title") = false :=
        Bool.not_eq_true _ ▸ Bool.eq_false_iff.mpr (fun he => hc he)
      cases ha : addSlide b sd with
      | none => rw [ha] at h; simp at h
      | some bmid =>
        rw [ha] at h
        obtain ⟨rs, hsl, _, hk⟩ := addSlide_nonTitle b bmid sd hc' ha
        obtain ⟨added, h2s, h2k⟩ := ih bmid b2 h
        refine ⟨rs :: added, ?_, ?_⟩
        · rw [h2s, hsl, List.append_assoc]
          rfl
        · intro s hsm
          rcases List.mem_cons.mp hsm with rfl | hsm'
          · exact hk
          · exact h2k s hsm'

/-- Counterexample to C3's universal clause ("exactly one title slide
for every outline"): for `c3Outline`, whose first entry IS tagged
`title` and whose third entry is tagged `title` again, the assembled
deck contains two title slides — the reuse branch of the assembler adds
`enhanced_slides[1:]` without skipping later title-tagged entries. -/
theorem title_slide_invariant_cex :
    (assembleDeck c3Outline "top" c3Enhanced).map
        (fun b => b.slides.countP (fun s => s.kind == .title)) = some 2 := rfl

/-- C3 (amended): for every deck assembled from an outline whose first
slide entry is not tagged `title`, the deck's first slide is a title
slide synthesized from the outline's top-level title, and every
title-tagged enhanced entry is skipped, so no further title slide
appears.  (When the outline's first entry IS tagged `title`, later
title-tagged entries are not skipped and the exactly-one guarantee can
fail, per the counterexample.) -/
theorem title_slide_invariant (outline : List (String × PyVal)) (topic : String)
    (enhanced : List (List (String × PyVal))) (d0 : List (String × PyVal)) (rest : List PyVal)
    (hs : dictGet outline "slides" = some (.vList (.vDict d0 :: rest)))
    (hnt : pyEq ((dictGet d0 "type").getD .vNone) (.vStr "title") = false) :
    ∀ b, assembleDeck outline topic enhanced = some b →
      b.slides.head?.map (fun s => s.kind) = some .title ∧
      b.slides.head?.map (fun s => s.titleText)
        = some ((dictGet outline "title").getD (.vStr topic)) ∧
      b.slides.tail.countP (fun s => s.kind == .title) = 0 := by
  intro b hb
  unfold assembleDeck at hb
  rw [hs] at hb
  simp only [Option.getD_some, pyTruthy, List.isEmpty_cons, Bool.not_false, if_true] at hb
  rw [hnt] at hb
  simp only [Bool.false_eq_true, if_false] at hb
  set titleData : List (String × PyVal) :=
    [("type", PyVal.vStr "title"),
     ("title", (dictGet outline "title").getD (.vStr topic)),
     ("subtitle", PyVal.vStr "A Comprehensive Overview")] with htd
  have haddt : addSlide initBuilder titleData
      = some ⟨1, [⟨.title, ⟨0, "Title Slide", 0, 1⟩,
          (dictGet outline "title").getD (.vStr topic),
          .subtitle (.vStr "A Comprehensive Overview")⟩]⟩ := by
    unfold addSlide addTitleSlide
    simp [htd, dictGet, dictHas, List.find?, pyEq, pyTruthy, getLayout, themeLayouts, initBuilder]
  rw [haddt] at hb
  obtain ⟨added, hslides, hnotitle⟩ := addNonTitleSlidesLoop_spec enhanced _ b hb
  simp only [List.singleton_append] at hslides
  rw [hslides]
  refine ⟨rfl, rfl, ?_⟩
  simp only [List.tail_cons]
  rw [List.countP_eq_zero]
  intro s hsm
  have := hnotitle s hsm
  simpa using this

/-- Witness for `title_slide_invariant` at a concrete outline whose
first slide is `content`-tagged, with a stray title-tagged enhanced
entry that is skipped. -/
theorem title_slide_invariant_witness :
    ((assembleDeck c3OutlineNoTitle "top" c3EnhancedNoTitle).getD initBuilder).slides.head?.map
        (fun s => s.kind) = some .title ∧
    ((assembleDeck c3OutlineNoTitle "top" c3EnhancedNoTitle).getD
        initBuilder).slides.tail.countP (fun s => s.kind == .title) = 0 := by
  have h := title_slide_invariant c3OutlineNoTitle "top" c3EnhancedNoTitle
    [("slide_number", .vInt 1), ("type", .vStr "content"), ("title", .vStr "A")] []
    rfl rfl ((assembleDeck c3OutlineNoTitle "top" c3EnhancedNoTitle).getD initBuilder) rfl
  exact ⟨h.1, h.2.2⟩

end PPTGen
